import Mathlib

/-!
# Verification of the proactive-message plugin core

Shallow embedding of the polling/decision pipeline of the plugin
(`src/main.py`, `src/message_analyzer.py`, `src/context_processor.py`,
`src/scheduler.py`) and proofs of the specified properties.

Conventions of the embedding:
* Python `dict` messages become the structure `Msg` with optional fields,
  so `msg.get("role")` is `Msg.role?` and key-presence tests are `Option`
  matches.
* Python strings on hot parsing paths are `List Char` so that every
  operation reduces by `rfl`/`decide` (Python `s.split(':')` is
  `splitOnChar`, `s.strip()` is `pyStrip`, `sub in s` is `<:+:` on the
  character lists).
* A call into a collaborator that may raise is an `Except String α`
  value; a `try/except` boundary in the source is a `match` on it.
* Machine integers are `Int`/`Nat`; Python's asymmetric tail slice
  `l[-k:]` is `pySliceFrom l (-k)`.
-/

/-- One message of a conversation transcript, as the JSON objects stored in
`conversation.history`: all fields are optional, mirroring `dict.get`.
`role?` is `msg.get("role")`, `timestamp?` the `"timestamp"` key, `time?`
the fallback `"time"` key read by `_get_last_message_time`. -/
structure Msg where
  role? : Option String
  content? : Option String
  timestamp? : Option Int
  time? : Option Int
deriving DecidableEq, Repr

/-- Python tail slice `l[i:]` for an arbitrary (possibly negative) start
index `i`: a negative index counts from the end and clamps at 0. -/
def pySliceFrom {α : Type} (l : List α) (i : Int) : List α :=
  if i < 0 then l.drop ((l.length : Int) + i).toNat else l.drop i.toNat

/-- The test `msg.get("role") == "user"` used by
`_ensure_context_format`. -/
def is_user_role (m : Msg) : Bool := m.role? = some "user"

/-- Source `src/context_processor.py _ensure_context_format`: find the first
message whose `role` is `"user"`; if it sits at a positive index drop
everything before it; if it is first, or there is no user message, return
the input unchanged. -/
def ensure_context_format (contexts : List Msg) : List Msg :=
  if contexts = [] then contexts
  else
    match List.findIdx? is_user_role contexts with
    | some i => if 0 < i then contexts.drop i else contexts
    | none => contexts

/-- Source `src/context_processor.py apply_context_limit`: the truncation
algorithm. `maxCtx` is `max_context_length` (`-1` = unlimited), `dequeue`
is `dequeue_context_length`. Python's `contexts[-keep_count:]` is the
slice `pySliceFrom contexts (-keepCount)`; `len(contexts) // 2` is `Nat`
division of the length. -/
def apply_context_limit (maxCtx dequeue : Int) (contexts : List Msg) : List Msg :=
  if contexts = [] then []
  else if maxCtx = -1 then contexts
  else
    let contextLength : Int := ((contexts.length / 2 : Nat) : Int)
    if contextLength ≤ maxCtx then contexts
    else
      let keepCount : Int := (maxCtx - dequeue + 1) * 2
      ensure_context_format (pySliceFrom contexts (-keepCount))

/-- Source `src/scheduler.py _parse_interval`: the scheduler's duration-token
table, as the Python dict literal. -/
def interval_mapping : List (String × Int) :=
  [("5min", 5 * 60), ("10min", 10 * 60), ("30min", 30 * 60),
   ("1hour", 60 * 60), ("3hour", 3 * 60 * 60)]

/-- Source `src/scheduler.py _parse_interval`: dict lookup, defaulting to 600 s
(10 minutes) for unknown tokens. -/
def parse_interval (interval : String) : Int :=
  match interval_mapping.lookup interval with
  | some v => v
  | none => 10 * 60

/-- Source `src/message_analyzer.py _parse_time_threshold`: the recency
threshold's duration-token table, as the Python dict literal. -/
def threshold_mapping : List (String × Int) :=
  [("1min", 60), ("5min", 5 * 60), ("10min", 10 * 60),
   ("30min", 30 * 60), ("1hour", 60 * 60)]

/-- Source `src/message_analyzer.py _parse_time_threshold`: `dict.get` with
default 1800 s (30 minutes) for unknown tokens. -/
def parse_time_threshold (threshold : String) : Int :=
  match threshold_mapping.lookup threshold with
  | some v => v
  | none => 30 * 60

/-- Python `s.split(sep)` for a one-character separator, on character
lists; `"".split(':') == ['']` and empty segments are kept. -/
def splitOnChar (sep : Char) : List Char → List (List Char)
  | [] => [[]]
  | c :: rest =>
    let r := splitOnChar sep rest
    if c = sep then [] :: r
    else
      match r with
      | [] => [[c]]
      | h :: t => (c :: h) :: t

/-- Python `s.strip()` on character lists: drop whitespace from both
ends. -/
def pyStrip (l : List Char) : List Char :=
  ((l.dropWhile Char.isWhitespace).reverse.dropWhile Char.isWhitespace).reverse

/-- The literal decision marker `^&YES&^` of `_call_llm_for_decision`. -/
def yesMarker : List Char := ['^', '&', 'Y', 'E', 'S', '&', '^']

/-- The literal decision marker `^&NO&^` of `_call_llm_for_decision`. -/
def noMarker : List Char := ['^', '&', 'N', 'O', '&', '^']

/-- The marker variant `^&NO^` (missing trailing caret) named by the
spec's parse policy; the source only tests for `noMarker`. -/
def noMarkerVariant : List Char := ['^', '&', 'N', 'O', '^']

/-- A conversation object as read by `_get_last_message_time` /
`_get_message_history` (`src/message_analyzer.py`): `history?` is
`conversation.history` (`none` for a missing/falsy value, `some (.error e)`
for a JSON string whose parse raises `JSONDecodeError`, `some (.ok msgs)`
for a parsed message list); `updatedAt?`/`createdAt?` are the optional
`updated_at`/`created_at` attributes. -/
structure Conversation where
  history? : Option (Except String (List Msg))
  updatedAt? : Option Int
  createdAt? : Option Int
deriving Repr

/-- The collaborator results consumed by one run of
`_get_last_message_time` (`src/message_analyzer.py`). `Except.error`
models the call raising; every such raise is absorbed by the function's
own `try/except` blocks. -/
structure LastTimeEnv where
  sessionId : String
  convId? : Except String (Option String)
  conversation? : Except String (Option Conversation)
  platformFallback? : Except String (Option Int)
deriving Repr

/-- Source `_get_last_message_time`, history branch: take the last parsed
message and return its `timestamp` field, else its `time` field, else
nothing (falling through to the conversation attributes). -/
def last_time_from_history (h : List Msg) : Option Int :=
  match h.getLast? with
  | none => none
  | some m =>
    match m.timestamp? with
    | some t => some t
    | none => m.time?

/-- Source `src/message_analyzer.py _get_last_message_time`: the full lookup
chain. Every failure path — empty session id, raised or falsy
conversation id, missing conversation, unparsable or timestamp-free
history, falsy `updated_at`/`created_at`, failed platform fallback —
yields `none`. Python truthiness: an empty-string conversation id and a
zero `updated_at`/`created_at` are falsy and skipped. -/
def get_last_message_time (env : LastTimeEnv) : Option Int :=
  if env.sessionId = "" then none
  else
    match env.convId? with
    | .error _ => none
    | .ok none => none
    | .ok (some cid) =>
      if cid = "" then none
      else
        match env.conversation? with
        | .error _ => none
        | .ok none => none
        | .ok (some conv) =>
          let fromHistory : Option Int :=
            match conv.history? with
            | none => none
            | some (.error _) => none
            | some (.ok h) => last_time_from_history h
          match fromHistory with
          | some t => some t
          | none =>
            match conv.updatedAt? with
            | some u =>
              if u ≠ 0 then some u
              else fallback_time env
            | none => fallback_time env
where
  /-- The `created_at` and platform-message-history fallbacks at the end
  of `_get_last_message_time`. -/
  fallback_time (env : LastTimeEnv) : Option Int :=
    match env.conversation? with
    | .ok (some conv) =>
      match conv.createdAt? with
      | some c =>
        if c ≠ 0 then some c else platform_time env
      | none => platform_time env
    | _ => none
  /-- The trailing `platform_message_history_manager` fallback; a raise
  inside it is caught and control reaches the final `return None`. -/
  platform_time (env : LastTimeEnv) : Option Int :=
    match env.platformFallback? with
    | .error _ => none
    | .ok v => v

/-- Source `src/message_analyzer.py _has_recent_message`: the recency gate. Its
input is the result of the `_get_last_message_time` call, with
`Except.error` modelling an exception reaching the gate's own
`try/except` (which returns `False`). A falsy (absent or zero) timestamp
returns `False`; otherwise the gate compares `now - t < threshold`. -/
def has_recent_message (lookup : Except String (Option Int)) (now threshold : Int) : Bool :=
  match lookup with
  | .error _ => false
  | .ok none => false
  | .ok (some t) =>
    if t = 0 then false
    else decide (now - t < threshold)

/-- The outcome of one provider interaction as observed by
`_call_llm_for_decision` / `_call_llm_for_topic`
(`src/message_analyzer.py`): no active provider, a falsy response
object, a falsy `completion_text`, a reply text, or the call raising.
(Cancellation, a `BaseException` in Python, behaves like `raised` in the
decision call, which handles it explicitly.) -/
inductive LLMOutcome where
  | noProvider
  | responseNone
  | emptyCompletion
  | reply (raw : List Char)
  | raised (msg : String)
deriving DecidableEq, Repr

/-- Source `src/message_analyzer.py _call_llm_for_decision`: returns the
`(should_send, response_text)` pair. The reply is stripped, then tested
for `^&YES&^`; else for `^&NO&^`; else the "unrecognized response"
branch — the last two both return `False` with the reply text. All
failure branches return `False` with a log message. -/
def call_llm_for_decision (o : LLMOutcome) : Bool × List Char :=
  match o with
  | .noProvider => (false, "没有可用的LLM提供者".data)
  | .responseNone => (false, "LLM响应为None".data)
  | .emptyCompletion => (false, "LLM响应的completion_text为空".data)
  | .reply raw =>
    let t := pyStrip raw
    if yesMarker <:+: t then (true, t)
    else if noMarker <:+: t then (false, t)
    else (false, t)
  | .raised e => (false, ("调用LLM时出现错误: " ++ e).data)

/-- Source `src/message_analyzer.py _call_llm_for_topic`: the stripped reply is
the topic verbatim; every failure branch yields `none`. -/
def call_llm_for_topic (o : LLMOutcome) : Option (List Char) :=
  match o with
  | .noProvider => none
  | .responseNone => none
  | .emptyCompletion => none
  | .reply raw => some (pyStrip raw)
  | .raised _ => none

/-- The collaborator results consumed by one run of
`_get_message_history` (`src/message_analyzer.py`). `enhanced` is the
result of `get_enhanced_conversation_history` (total in the source: it
catches internally and returns `[]`); the remaining fields feed the
fallback path through the conversation manager. -/
structure HistoryEnv where
  enableEnhancement : Bool
  enhanced : List Msg
  convId? : Option String
  conversation? : Option Conversation
deriving Repr

/-- Source `src/message_analyzer.py _get_message_history`: empty session id ⇒
`[]`; with timestamp enhancement enabled a non-empty enhanced history is
returned directly; otherwise the conversation-manager fallback, where a
falsy conversation id, a missing conversation, a falsy history and a
JSON parse failure all yield `[]`. -/
def get_message_history (sessionId : String) (env : HistoryEnv) : List Msg :=
  if sessionId = "" then []
  else if env.enableEnhancement ∧ env.enhanced ≠ [] then env.enhanced
  else
    match env.convId? with
    | none => []
    | some cid =>
      if cid = "" then []
      else
        match env.conversation? with
        | none => []
        | some conv =>
          match conv.history? with
          | none => []
          | some (.error _) => []
          | some (.ok h) => h

/-- Source `_get_message_history` including its outer `try/except`, which turns
any raise from the collaborators into `[]`. -/
def get_message_history_total (sessionId : String) (fetch : Except String HistoryEnv) : List Msg :=
  match fetch with
  | .error _ => []
  | .ok env => get_message_history sessionId env

/-- The per-session collaborator results consumed by one pipeline run
(`should_send_proactive_message` + `get_proactive_topic`,
`src/message_analyzer.py`, driven by the loop body of
`_check_and_send_proactive_messages` in `src/main.py`).
`lastLookup` is the `_get_last_message_time` result as seen by the
recency gate; `historyFetch`/`topicHistoryFetch` are the two independent
`_get_message_history` runs (the topic phase re-fetches); `decision` and
`topicOutcome` are the two oracle interactions. -/
structure PipelineEnv where
  sessionId : String
  now : Int
  threshold : Int
  lastLookup : Except String (Option Int)
  historyFetch : Except String HistoryEnv
  decision : LLMOutcome
  topicHistoryFetch : Except String HistoryEnv
  topicOutcome : LLMOutcome

/-- Source `src/message_analyzer.py should_send_proactive_message`: recent
activity ⇒ `False`; empty history ⇒ `False` (the oracle is not
consulted); otherwise the decision oracle's parsed verdict. -/
def should_send_proactive_message (env : PipelineEnv) : Bool :=
  if has_recent_message env.lastLookup env.now env.threshold then false
  else if get_message_history_total env.sessionId env.historyFetch = [] then false
  else (call_llm_for_decision env.decision).1

/-- Source `src/message_analyzer.py get_proactive_topic`: re-fetch the history
(empty ⇒ `none`, no oracle call), then the topic oracle's reply. -/
def get_proactive_topic (env : PipelineEnv) : Option (List Char) :=
  if get_message_history_total env.sessionId env.topicHistoryFetch = [] then none
  else call_llm_for_topic env.topicOutcome

/-- The verdict of one session's analysis, tagging the return site taken
by the source: the three `return False` sites of
`should_send_proactive_message` (recent activity / no history / oracle
declined), the falsy-topic branch of the main loop, and the send
branch. -/
inductive StepVerdict where
  | skipRecent
  | skipNoHistory
  | skipDeclined
  | skipNoTopic
  | send (topic : List Char)
deriving DecidableEq, Repr

/-- One session's analysis pipeline: the loop body of
`_check_and_send_proactive_messages` (`src/main.py`) composed with
`should_send_proactive_message` and `get_proactive_topic`. Returns the
verdict together with whether the oracle was reached
(`_call_llm_for_decision` / `_call_llm_for_topic` call sites). The main
loop's `if topic:` is Python truthiness, so a `none` or empty topic both
land in the falsy-topic skip. -/
def analyze_session (env : PipelineEnv) : StepVerdict × Bool :=
  if has_recent_message env.lastLookup env.now env.threshold then (.skipRecent, false)
  else if get_message_history_total env.sessionId env.historyFetch = [] then (.skipNoHistory, false)
  else if (call_llm_for_decision env.decision).1 then
    match get_proactive_topic env with
    | some t => if t = [] then (.skipNoTopic, true) else (.send t, true)
    | none => (.skipNoTopic, true)
  else (.skipDeclined, true)

/-- The record one iteration of the session loop of
`_check_and_send_proactive_messages` (`src/main.py`) appends: either the
session id enters `sessions_to_send` (after the send attempt) or
`sessions_to_skip` maps it to a reason string. -/
inductive SessionResult where
  | sent (sid : List Char)
  | skipped (sid : List Char) (reason : List Char)
deriving DecidableEq, Repr

/-- One iteration of the session loop of
`_check_and_send_proactive_messages` (`src/main.py`). `admin` is the
(total, internally caught) `_is_admin_conversation` result; `analysis`
is the outcome of the body from `should_send_proactive_message` onward,
with `Except.error` modelling any raise inside the iteration — caught by
the loop's own `try/except`, which records `"处理异常: <message>"` and
continues. -/
def process_session (adminOnly : Bool) (admin : Bool)
    (analysis : Except String StepVerdict) (sid : List Char) : SessionResult :=
  if adminOnly ∧ ¬admin then .skipped sid "非管理员会话(admin_only模式)".data
  else
    match analysis with
    | .error e => .skipped sid ("处理异常: " ++ e).data
    | .ok v =>
      match v with
      | .send _ => .sent sid
      | .skipNoTopic => .skipped sid "未能生成有效话题".data
      | _ => .skipped sid "LLM判断不需要发送主动消息".data

/-- The whole session loop of `_check_and_send_proactive_messages`: each
discovered session is processed independently (the loop state only
accumulates, so the batch is the per-session map). -/
def run_batch (adminOnly : Bool) (admin : List Char → Bool)
    (analyze : List Char → Except String StepVerdict)
    (sessions : List (List Char)) : List SessionResult :=
  sessions.map (fun sid => process_session adminOnly (admin sid) (analyze sid) sid)

/-- Source `src/main.py _is_private_conversation_by_id`: split the session id
on `':'`; private iff there are at least three segments and the second
is `"FriendMessage"`. -/
def is_private_conversation_by_id (sessionId : List Char) : Bool :=
  let parts := splitOnChar ':' sessionId
  if 3 ≤ parts.length then decide (parts.get? 1 = some "FriendMessage".data)
  else false

/-- Source `src/main.py _get_private_conversations`: iterate the conversation
store, skip an entry whose processing raises (`Except.error`, caught by
the per-entry `try/except`), and collect private session ids into a
Python `set` — modelled as a list with membership-tested insertion, so
it carries no duplicates. -/
def private_session_step (acc : List (List Char)) (c : Except String (List Char)) :
    List (List Char) :=
  match c with
  | .error _ => acc
  | .ok sid =>
    if is_private_conversation_by_id sid then
      if sid ∈ acc then acc else acc ++ [sid]
    else acc

/-- Source `src/main.py _get_private_conversations`, the whole loop. -/
def get_private_conversations (convs : List (Except String (List Char))) : List (List Char) :=
  convs.foldl private_session_step []

/-- Source `src/main.py _is_admin_conversation`: split on `':'`; with at least
three segments the last segment is tested for membership in
`admins_id`; otherwise (or on a raise, caught internally) `False`. -/
def is_admin_conversation (adminsId : List (List Char)) (sessionId : List Char) : Bool :=
  let parts := splitOnChar ':' sessionId
  if 3 ≤ parts.length then
    match parts.getLast? with
    | some u => decide (u ∈ adminsId)
    | none => false
  else false

/-- The eligible-session population of one poll cycle: the discovered
private sessions, restricted by `_is_admin_conversation` when
`admin_only` is set (the filter applied at the top of the session loop
in `_check_and_send_proactive_messages`). -/
def list_eligible_sessions (adminOnly : Bool) (adminsId : List (List Char))
    (convs : List (Except String (List Char))) : List (List Char) :=
  let priv := get_private_conversations convs
  if adminOnly then priv.filter (fun s => is_admin_conversation adminsId s) else priv

/-- Source `src/scheduler.py add_job`: the job configuration handed to the
scheduling framework — the parsed interval, the id
`proactive_msg_job_<n>`, `max_instances=1` and
`misfire_grace_time=30`. -/
structure JobConfig where
  intervalSeconds : Int
  id : String
  maxInstances : Nat
  misfireGraceTime : Nat
deriving DecidableEq, Repr

/-- Source `src/scheduler.py add_job`: builds the configuration for the job it
registers (`numJobs` is `len(self.jobs)` at the call). -/
def add_job_config (interval : String) (numJobs : Nat) : JobConfig :=
  ⟨parse_interval interval, "proactive_msg_job_" ++ toString numJobs, 1, 30⟩

/-- An event of a job's lifecycle in the scheduling framework: the timer
fires (with how late it is, in seconds), or a running batch finishes. -/
inductive SchedEvent where
  | fire (lateness : Nat)
  | finish
deriving DecidableEq, Repr

/-- What the framework does with one timer fire. -/
inductive FireOutcome where
  | started
  | misfireRecorded
  | dropped
deriving DecidableEq, Repr

/-- Modelled from the spec: the "max one concurrent instance" execution
semantics that the scheduling framework (APScheduler, outside `src/`)
provides for a job registered by `add_job`. A fire starts a new batch
only when fewer than `maxInstances` are running; otherwise it is
recorded as a misfire within the grace period and dropped beyond it — in
neither case is it queued. `running` is the number of concurrently
running batches of the job. -/
def job_fire (cfg : JobConfig) (running : Nat) (lateness : Nat) : Nat × FireOutcome :=
  if running < cfg.maxInstances then (running + 1, .started)
  else if lateness ≤ cfg.misfireGraceTime then (running, .misfireRecorded)
  else (running, .dropped)

/-- Modelled from the spec: one step of the job lifecycle — a fire as in
`job_fire`, or a batch finishing. -/
def job_step (cfg : JobConfig) (running : Nat) (e : SchedEvent) : Nat :=
  match e with
  | .fire lateness => (job_fire cfg running lateness).1
  | .finish => running - 1

/-- Modelled from the spec: the number of running batches after a trace
of events, starting from the idle state. -/
def job_run (cfg : JobConfig) (events : List SchedEvent) : Nat :=
  events.foldl (job_step cfg) 0

/-! ## Helper lemmas -/

/-- A successful `findIdx?` points at an element satisfying the
predicate. -/
theorem findIdx?_some_spec {α : Type} (p : α → Bool) :
    ∀ (l : List α) (j : ℕ), List.findIdx? p l = some j →
      ∃ x, l[j]? = some x ∧ p x = true := by
  intro l
  induction l with
  | nil => intro j h; simp [List.findIdx?] at h
  | cons a t ih =>
    intro j h
    rw [ List.findIdx?_cons] at h
    by_cases hp : p a
    · rw [if_pos hp] at h
      cases h
      exact ⟨a, by simp, hp⟩
    · rw [if_neg hp, List.findIdx?_succ] at h
      rcases Option.map_eq_some'.mp h with ⟨j', hj', hj⟩
      obtain ⟨x, hx, hpx⟩ := ih j' hj'
      refine ⟨x, ?_, hpx⟩
      subst hj
      simpa using hx

/-- When the user scan succeeds, `_ensure_context_format` drops exactly
the prefix before the found index (also when the index is `0`). -/
theorem ensure_cf_eq_drop (l : List Msg) (j : ℕ)
    (h : List.findIdx? is_user_role l = some j) :
    ensure_context_format l = l.drop j := by
  have hne : l ≠ [] := by rintro rfl; simp [List.findIdx?] at h
  unfold ensure_context_format
  rw [if_neg hne, h]
  rcases j with _ | j
  · simp
  · simp

/-- When no message has the user role, `_ensure_context_format` returns
its input unchanged. -/
theorem ensure_cf_no_user (l : List Msg)
    (h : ∀ m ∈ l, is_user_role m = false) :
    ensure_context_format l = l := by
  have hn : List.findIdx? is_user_role l = none :=
    List.findIdx?_eq_none_iff.mpr h
  unfold ensure_context_format
  by_cases he : l = []
  · rw [if_pos he]
  · rw [if_neg he, hn]

/-- When some message has the user role, the realigned transcript starts
with a user message. -/
theorem ensure_cf_head_user (l : List Msg)
    (h : ∃ m ∈ l, is_user_role m = true) :
    ∃ x, (ensure_context_format l).head? = some x ∧ is_user_role x = true := by
  cases hf : List.findIdx? is_user_role l with
  | none =>
    rcases h with ⟨m, hm, hu⟩
    have := List.findIdx?_eq_none_iff.mp hf m hm
    rw [hu] at this
    cases this
  | some j =>
    obtain ⟨x, hx, hpx⟩ := findIdx?_some_spec is_user_role l j hf
    refine ⟨x, ?_, hpx⟩
    rw [ensure_cf_eq_drop l j hf, List.head?_drop, hx]

/-- Helper: `_ensure_context_format` never turns a non-empty transcript into an
empty one. -/
theorem ensure_cf_ne_nil (l : List Msg) (h : l ≠ []) :
    ensure_context_format l ≠ [] := by
  cases hf : List.findIdx? is_user_role l with
  | none =>
    unfold ensure_context_format
    rw [if_neg h, hf]
    exact h
  | some j =>
    obtain ⟨x, hx, _⟩ := findIdx?_some_spec is_user_role l j hf
    rw [ensure_cf_eq_drop l j hf]
    intro hc
    rw [← List.head?_drop, hc] at hx
    cases hx

/-- The Python tail slice `l[-k:]` for positive `k` keeps the last `k`
elements (clamped at the full list). -/
theorem pySliceFrom_neg {α : Type} (l : List α) (k : Int) (hk : 0 < k) :
    pySliceFrom l (-k) = l.drop (l.length - k.toNat) := by
  unfold pySliceFrom
  rw [if_pos (by omega : (-k : Int) < 0)]
  congr 1
  omega

/-- The Python slice `l[i:]` for non-negative `i` drops the first `i`
elements. -/
theorem pySliceFrom_nonneg {α : Type} (l : List α) (i : Int) (hi : 0 ≤ i) :
    pySliceFrom l i = l.drop i.toNat := by
  unfold pySliceFrom
  rw [if_neg (by omega : ¬ i < 0)]

/-- A sample user message for concrete evaluations. -/
def userMsg : Msg := ⟨some "user", some "hi", none, none⟩

/-- A sample assistant message for concrete evaluations. -/
def agentMsg : Msg := ⟨some "assistant", some "hello", none, none⟩

/-! ## C3: the truncation algorithm -/

/-- C3 (amended): `apply_context_limit` returns the transcript unchanged
when `max_context_length` is `-1` or the pair count is within the limit;
when truncation occurs and `keepCount = (maxCtx - dequeue + 1) * 2` is
positive it keeps exactly the last `keepCount` turns (clamped at the
transcript) and re-aligns them with `_ensure_context_format`, which
makes the result start with a `user`-role turn whenever the kept slice
contains one, and returns the kept slice unmodified when it contains
none. (The claim's unguarded "otherwise" clause fails when
`keepCount ≤ 0`, see the counterexample.) -/
theorem spec_c3_theorem (maxCtx dequeue : Int) (T : List Msg) :
    ((maxCtx = -1 ∨ ((T.length / 2 : Nat) : Int) ≤ maxCtx) →
      apply_context_limit maxCtx dequeue T = T) ∧
    (maxCtx ≠ -1 → maxCtx < ((T.length / 2 : Nat) : Int) →
      0 < (maxCtx - dequeue + 1) * 2 →
      apply_context_limit maxCtx dequeue T =
        ensure_context_format
          (T.drop (T.length - ((maxCtx - dequeue + 1) * 2).toNat))) ∧
    (∀ S : List Msg,
      ((∃ m ∈ S, is_user_role m = true) →
        ∃ x, (ensure_context_format S).head? = some x ∧ is_user_role x = true) ∧
      ((∀ m ∈ S, is_user_role m = false) → ensure_context_format S = S)) := by
  refine ⟨?_, ?_, ?_⟩
  · intro h
    unfold apply_context_limit
    by_cases he : T = []
    · rw [if_pos he, he]
    · rw [if_neg he]
      rcases h with h | h
      · rw [if_pos h]
      · by_cases hm : maxCtx = -1
        · rw [if_pos hm]
        · rw [if_neg hm]
          simp only []
          rw [if_pos h]
  · intro hm hlt hk
    unfold apply_context_limit
    by_cases he : T = []
    · rw [if_pos he]
      subst he
      simp [ensure_context_format]
    · rw [if_neg he, if_neg hm]
      simp only []
      rw [if_neg (by omega : ¬ ((T.length / 2 : Nat) : Int) ≤ maxCtx)]
      rw [pySliceFrom_neg T _ hk]
  · intro S
    exact ⟨ensure_cf_head_user S, ensure_cf_no_user S⟩

/-- Witness for C3 at concrete inputs: an 8-turn transcript with
`maxCtx = 2`, `dequeue = 1` keeps the last 4 turns, already
user-aligned. -/
theorem spec_c3_witness :
    apply_context_limit (-1) 1 [userMsg, agentMsg] = [userMsg, agentMsg] ∧
    apply_context_limit 2 1
        [userMsg, agentMsg, userMsg, agentMsg, userMsg, agentMsg, userMsg, agentMsg] =
      [userMsg, agentMsg, userMsg, agentMsg] := by
  constructor
  · exact ( spec_c3_theorem (-1) 1 [userMsg, agentMsg]).1 (Or.inl rfl)
  · have h := ( spec_c3_theorem 2 1
      [userMsg, agentMsg, userMsg, agentMsg, userMsg, agentMsg, userMsg, agentMsg]).2.1
      (by decide) (by decide) (by decide)
    rw [h]
    rfl

/-- Counterexample to C3 as stated: with `maxCtx = 1`, `dequeue = 2` and
a 4-turn transcript, truncation occurs and `keepCount = 0`, so the claim
("keep exactly the last 0 turns, then re-align") predicts `[]`, but the
Python slice `contexts[-0:]` keeps the whole transcript. -/
theorem spec_c3_counterexample :
    ((1 : Int) ≠ -1) ∧
    ((1 : Int) < ((([userMsg, agentMsg, userMsg, agentMsg].length / 2 : Nat)) : Int)) ∧
    (((1 : Int) - 2 + 1) * 2 = 0) ∧
    ensure_context_format
        ([userMsg, agentMsg, userMsg, agentMsg].drop
          ([userMsg, agentMsg, userMsg, agentMsg].length - (((1 : Int) - 2 + 1) * 2).toNat)) = [] ∧
    apply_context_limit 1 2 [userMsg, agentMsg, userMsg, agentMsg] =
      [userMsg, agentMsg, userMsg, agentMsg] ∧
    [userMsg, agentMsg, userMsg, agentMsg] ≠ ([] : List Msg) := by
  refine ⟨by decide, by decide, by decide, by rfl, by rfl, by decide⟩

/-! ## C4: truncation with non-positive keep count -/

/-- C4 (amended): when truncation occurs and
`keepCount = (maxCtx - dequeue + 1) * 2 ≤ 0`, `apply_context_limit` does
not fail: the Python slice `contexts[-keepCount:]` has a non-negative
start index, so the code keeps the entire transcript when
`keepCount = 0` and drops `-keepCount` leading turns when
`keepCount < 0`, then re-aligns; in particular for `keepCount = 0` the
result of a non-empty transcript is non-empty, so the caller's
empty-history skip is not triggered. (The claim's "returns an empty
transcript" is refuted by the counterexample.) -/
theorem spec_c4_theorem (maxCtx dequeue : Int) (T : List Msg)
    (hm : maxCtx ≠ -1) (hlt : maxCtx < ((T.length / 2 : Nat) : Int))
    (hk : (maxCtx - dequeue + 1) * 2 ≤ 0) :
    apply_context_limit maxCtx dequeue T =
      ensure_context_format (T.drop (-((maxCtx - dequeue + 1) * 2)).toNat) ∧
    ((maxCtx - dequeue + 1) * 2 = 0 →
      apply_context_limit maxCtx dequeue T = ensure_context_format T) ∧
    (T ≠ [] → (maxCtx - dequeue + 1) * 2 = 0 →
      apply_context_limit maxCtx dequeue T ≠ []) := by
  have hmain : apply_context_limit maxCtx dequeue T =
      ensure_context_format (T.drop (-((maxCtx - dequeue + 1) * 2)).toNat) := by
    unfold apply_context_limit
    by_cases he : T = []
    · rw [if_pos he]
      subst he
      simp [ensure_context_format]
    · rw [if_neg he, if_neg hm]
      simp only []
      rw [if_neg (by omega : ¬ ((T.length / 2 : Nat) : Int) ≤ maxCtx)]
      rw [pySliceFrom_nonneg T _ (by omega)]
  refine ⟨hmain, ?_, ?_⟩
  · intro h0
    rw [hmain, h0]
    simp
  · intro hne h0
    rw [hmain, h0]
    simpa using ensure_cf_ne_nil T hne

/-- Witness for C4: `maxCtx = 1`, `dequeue = 2`, a 4-turn transcript
starting with an assistant turn — `keepCount = 0`, the whole transcript
is kept and re-aligned to its first user turn; the result is not
empty. -/
theorem spec_c4_witness :
    apply_context_limit 1 2 [agentMsg, userMsg, agentMsg, userMsg] =
      ensure_context_format [agentMsg, userMsg, agentMsg, userMsg] ∧
    apply_context_limit 1 2 [agentMsg, userMsg, agentMsg, userMsg] ≠ [] := by
  have h := spec_c4_theorem 1 2 [agentMsg, userMsg, agentMsg, userMsg]
    (by decide) (by decide) (by decide)
  exact ⟨h.2.1 (by decide), h.2.2 (by decide) (by decide)⟩

/-- Counterexample to C4 as stated: in the `keepCount = 0` case the code
returns the (re-aligned) full transcript, not an empty one. -/
theorem spec_c4_counterexample :
    ((1 : Int) ≠ -1) ∧
    ((1 : Int) < ((([agentMsg, userMsg, agentMsg, userMsg].length / 2 : Nat)) : Int)) ∧
    (((1 : Int) - 2 + 1) * 2 ≤ 0) ∧
    apply_context_limit 1 2 [agentMsg, userMsg, agentMsg, userMsg] =
      [userMsg, agentMsg, userMsg] ∧
    apply_context_limit 1 2 [agentMsg, userMsg, agentMsg, userMsg] ≠ [] := by
  refine ⟨by decide, by decide, by decide, by rfl, by decide⟩

/-! ## C5: decision-marker parsing -/

/-- Contiguous containment survives `dropWhile` when no character of the
pattern satisfies the dropped predicate. -/
theorem contained_dropWhile {p : Char → Bool} {m : List Char}
    (hm : m ≠ []) (hc : ∀ c ∈ m, p c = false) :
    ∀ {l : List Char}, m <:+: l → m <:+: l.dropWhile p := by
  intro l
  induction l with
  | nil =>
    intro h
    obtain ⟨s, t, hst⟩ := h
    rcases List.append_eq_nil.mp hst with ⟨hsm, ht⟩
    rcases List.append_eq_nil.mp hsm with ⟨hs, hm0⟩
    exact absurd hm0 hm
  | cons a l ih =>
    intro h
    rw [ List.dropWhile_cons]
    by_cases hp : p a
    · rw [if_pos hp]
      apply ih
      obtain ⟨s, t, hst⟩ := h
      cases s with
      | nil =>
        simp only [List.nil_append] at hst
        cases m with
        | nil => exact absurd rfl hm
        | cons b m' =>
          rw [List.cons_append] at hst
          injection hst with hba _
          subst hba
          have hfb := hc b (List.mem_cons_self b m')
          rw [hp] at hfb
          cases hfb
      | cons x s' =>
        rw [List.cons_append] at hst
        injection hst with _ hrest
        exact ⟨s', t, hrest⟩
    · rw [if_neg hp]
      exact h

/-- Contiguous containment is preserved by reversal. -/
theorem contained_reverse {α : Type} {m l : List α} (h : m <:+: l) :
    m.reverse <:+: l.reverse := by
  obtain ⟨s, t, hst⟩ := h
  refine ⟨t.reverse, s.reverse, ?_⟩
  rw [← hst]
  simp [List.reverse_append, List.append_assoc]

/-- A whitespace-free, non-empty pattern contained in a string is still
contained after `strip()`: stripping only removes whitespace at the
ends, which cannot intersect the pattern. -/
theorem contained_pyStrip {m l : List Char} (hm : m ≠ [])
    (hc : ∀ c ∈ m, c.isWhitespace = false) (h : m <:+: l) :
    m <:+: pyStrip l := by
  unfold pyStrip
  have h1 : m <:+: l.dropWhile Char.isWhitespace := contained_dropWhile hm hc h
  have h2 := contained_reverse h1
  have hm' : m.reverse ≠ [] := by simpa using hm
  have hc' : ∀ c ∈ m.reverse, c.isWhitespace = false := by
    intro c hcm
    exact hc c (List.mem_reverse.mp hcm)
  have h3 := contained_dropWhile hm' hc' h2
  have h4 := contained_reverse h3
  simpa using h4

/-- Contiguous containment is transitive. -/
theorem contained_trans {α : Type} {a b c : List α} (h1 : a <:+: b) (h2 : b <:+: c) :
    a <:+: c := by
  obtain ⟨s, t, hst⟩ := h1
  obtain ⟨u, v, huv⟩ := h2
  exact ⟨u ++ s, t ++ v, by rw [← huv, ← hst]; simp [List.append_assoc]⟩

/-- Helper: `strip()` returns a contiguous piece of its input. -/
theorem pyStrip_contained (l : List Char) : pyStrip l <:+: l := by
  obtain ⟨s, hs⟩ := List.dropWhile_suffix (l := l) Char.isWhitespace
  obtain ⟨u, hu⟩ :=
    List.dropWhile_suffix (l := (l.dropWhile Char.isWhitespace).reverse) Char.isWhitespace
  refine ⟨s, u.reverse, ?_⟩
  unfold pyStrip
  have hA : ((l.dropWhile Char.isWhitespace).reverse.dropWhile Char.isWhitespace).reverse
      ++ u.reverse = l.dropWhile Char.isWhitespace := by
    rw [← List.reverse_append, hu, List.reverse_reverse]
  rw [List.append_assoc, hA, hs]

/-- C5: the decision parse policy of `_call_llm_for_decision`. A reply
containing `^&YES&^` yields `proceed = true` whatever else it contains;
a reply containing `^&NO&^` or the caret-less variant `^&NO^` (and not
`^&YES&^`) yields `false`; a reply containing neither marker yields
`false`; and the no-provider, falsy-response and empty-completion
branches all yield `false`. -/
theorem spec_c5_theorem (raw : List Char) :
    (yesMarker <:+: raw → (call_llm_for_decision (.reply raw)).1 = true) ∧
    ((noMarker <:+: raw ∨ noMarkerVariant <:+: raw) → ¬ yesMarker <:+: raw →
      (call_llm_for_decision (.reply raw)).1 = false) ∧
    (¬ yesMarker <:+: raw → ¬ noMarker <:+: raw → ¬ noMarkerVariant <:+: raw →
      (call_llm_for_decision (.reply raw)).1 = false) ∧
    (call_llm_for_decision .noProvider).1 = false ∧
    (call_llm_for_decision .responseNone).1 = false ∧
    (call_llm_for_decision .emptyCompletion).1 = false := by
  have hno : ∀ r : List Char, ¬ yesMarker <:+: r →
      (call_llm_for_decision (.reply r)).1 = false := by
    intro r hy
    have hys : ¬ yesMarker <:+: pyStrip r := fun hc =>
      hy (contained_trans hc (pyStrip_contained r))
    unfold call_llm_for_decision
    simp only []
    rw [if_neg hys]
    by_cases hn : noMarker <:+: pyStrip r
    · rw [if_pos hn]
    · rw [if_neg hn]
  refine ⟨?_, ?_, ?_, rfl, rfl, rfl⟩
  · intro hy
    have hys : yesMarker <:+: pyStrip raw :=
      contained_pyStrip (by decide) (by decide) hy
    unfold call_llm_for_decision
    simp only []
    rw [if_pos hys]
  · intro _ hy
    exact hno raw hy
  · intro hy _ _
    exact hno raw hy

/-- Witness for C5 at concrete replies: a noisy YES reply proceeds, NO
and caret-less NO replies do not, an unrecognized reply does not. -/
theorem spec_c5_witness :
    (call_llm_for_decision (.reply
      ['o', 'k', ' ', '^', '&', 'Y', 'E', 'S', '&', '^', '!'])).1 = true ∧
    (call_llm_for_decision (.reply
      [' ', '^', '&', 'N', 'O', '&', '^', ' '])).1 = false ∧
    (call_llm_for_decision (.reply
      ['^', '&', 'N', 'O', '^'])).1 = false ∧
    (call_llm_for_decision (.reply ['h', 'i'])).1 = false := by
  refine ⟨?_, ?_, ?_, ?_⟩
  · exact ( spec_c5_theorem
      ['o', 'k', ' ', '^', '&', 'Y', 'E', 'S', '&', '^', '!']).1 (by decide)
  · exact ( spec_c5_theorem
      [' ', '^', '&', 'N', 'O', '&', '^', ' ']).2.1 (Or.inl (by decide)) (by decide)
  · exact ( spec_c5_theorem
      ['^', '&', 'N', 'O', '^']).2.1 (Or.inr (by decide)) (by decide)
  · exact ( spec_c5_theorem ['h', 'i']).2.2.1 (by decide) (by decide) (by decide)

/-! ## C6: the recency gate -/

/-- C6 (amended): the gate returns `false` when the last-activity
timestamp is absent; when a timestamp is present and non-zero it returns
`true` exactly when `now - lastActivity < threshold`; and a session
whose last activity is the current non-zero instant is too recent for
any positive threshold. (A present but zero timestamp is Python-falsy
and treated as absent — see the counterexample.) -/
theorem spec_c6_theorem :
    (∀ now threshold : Int, has_recent_message (.ok none) now threshold = false) ∧
    (∀ t now threshold : Int, t ≠ 0 →
      (has_recent_message (.ok (some t)) now threshold = true ↔ now - t < threshold)) ∧
    (∀ now threshold : Int, now ≠ 0 → 0 < threshold →
      has_recent_message (.ok (some now)) now threshold = true) := by
  refine ⟨fun _ _ => rfl, ?_, ?_⟩
  · intro t now threshold ht
    unfold has_recent_message
    dsimp only
    rw [if_neg ht]
    exact decide_eq_true_iff
  · intro now threshold hn hth
    unfold has_recent_message
    dsimp only
    rw [if_neg hn]
    exact decide_eq_true (by omega)

/-- Witness for C6: an absent timestamp is eligible; activity at the
current instant (100) is too recent for a 1800 s threshold; activity
50 s before `now = 100` is not too recent for a 10 s threshold. -/
theorem spec_c6_witness :
    has_recent_message (.ok none) 100 1800 = false ∧
    has_recent_message (.ok (some 100)) 100 1800 = true ∧
    has_recent_message (.ok (some 50)) 100 10 = false := by
  refine ⟨ spec_c6_theorem.1 100 1800, spec_c6_theorem.2.2 100 1800 (by decide) (by decide), ?_⟩
  have h := ( spec_c6_theorem.2.1 50 100 10 (by decide)).not
  simp only [Bool.not_eq_true] at h
  exact h.mpr (by decide)

/-- Counterexample to C6 as stated: the timestamp `0` is present, and
`now - 0 < threshold` holds at `now = 5`, `threshold = 10`, yet the gate
returns `false` — Python's `if not last_message_timestamp` treats the
zero timestamp as absent. -/
theorem spec_c6_counterexample :
    has_recent_message (.ok (some 0)) 5 10 = false ∧ (5 : Int) - 0 < 10 := by
  exact ⟨rfl, by decide⟩

/-! ## C10: the gate fails open on lookup failures -/

/-- C10: the recency gate fails open. An exception reaching the gate's
`try/except` yields `false`; every lookup failure path of
`_get_last_message_time` yields `none`, and a `none` lookup yields
`false` — in particular a raised conversation-id fetch, a raised
conversation fetch, and the full fallback chain failing (unparsable
history, absent `updated_at`/`created_at`, raised platform fallback) all
leave the session eligible. -/
theorem spec_c10_theorem :
    (∀ (e : String) (now threshold : Int),
      has_recent_message (.error e) now threshold = false) ∧
    (∀ (env : LastTimeEnv) (now threshold : Int),
      get_last_message_time env = none →
      has_recent_message (.ok (get_last_message_time env)) now threshold = false) ∧
    (∀ (env : LastTimeEnv) (e : String),
      env.convId? = .error e → get_last_message_time env = none) ∧
    (∀ (env : LastTimeEnv) (e : String),
      env.conversation? = .error e → get_last_message_time env = none) ∧
    (∀ (env : LastTimeEnv) (e e' : String) (conv : Conversation),
      env.conversation? = .ok (some conv) → conv.history? = some (.error e) →
      conv.updatedAt? = none → conv.createdAt? = none →
      env.platformFallback? = .error e' → get_last_message_time env = none) := by
  refine ⟨fun _ _ _ => rfl, ?_, ?_, ?_, ?_⟩
  · intro env now threshold h
    rw [h]
    rfl
  · intro env e h
    unfold get_last_message_time
    by_cases hs : env.sessionId = ""
    · rw [if_pos hs]
    · rw [if_neg hs, h]
  · intro env e h
    unfold get_last_message_time
    by_cases hs : env.sessionId = ""
    · rw [if_pos hs]
    · rw [if_neg hs]
      cases hc : env.convId? with
      | error _ => rfl
      | ok v =>
        cases v with
        | none => rfl
        | some cid =>
          dsimp only
          by_cases hcid : cid = ""
          · rw [if_pos hcid]
          · rw [if_neg hcid, h]
  · intro env e e' conv hconv hhist hupd hcre hplat
    unfold get_last_message_time
    by_cases hs : env.sessionId = ""
    · rw [if_pos hs]
    · rw [if_neg hs]
      cases hc : env.convId? with
      | error _ => rfl
      | ok v =>
        cases v with
        | none => rfl
        | some cid =>
          dsimp only
          by_cases hcid : cid = ""
          · rw [if_pos hcid]
          · rw [if_neg hcid, hconv]
            simp only [hhist, hupd]
            unfold get_last_message_time.fallback_time
            rw [hconv]
            simp only [hcre]
            unfold get_last_message_time.platform_time
            rw [hplat]

/-- Witness for C10 at concrete failure inputs: a raised lookup, and an
environment whose entire fallback chain fails, both leave the session
eligible. -/
theorem spec_c10_witness :
    has_recent_message (.error "store down") 100 1800 = false ∧
    get_last_message_time
        ⟨"sess", .error "curr_conversation_id raised", .ok none, .ok none⟩ = none ∧
    has_recent_message
        (.ok (get_last_message_time
          ⟨"sess", .error "curr_conversation_id raised", .ok none, .ok none⟩)) 100 1800
      = false := by
  refine ⟨ spec_c10_theorem.1 "store down" 100 1800, ?_, ?_⟩
  · exact spec_c10_theorem.2.2.1 _ "curr_conversation_id raised" rfl
  · exact spec_c10_theorem.2.1 _ 100 1800
      ( spec_c10_theorem.2.2.1 _ "curr_conversation_id raised" rfl)

/-! ## C1: the pipeline's step contract -/

/-- C1: for every analyzed session, the verdict follows the step
contract, and the boolean component of `analyze_session` records whether
an oracle call site was reached: a too-recent session skips with the
recent-activity verdict and no oracle call; an empty or unavailable
transcript skips with the no-history verdict and no oracle call; a
declined decision skips with the declined verdict; a missing or empty
topic skips with the no-topic verdict; otherwise the verdict is the send
with the generated topic. -/
theorem spec_c1_theorem (env : PipelineEnv) :
    (has_recent_message env.lastLookup env.now env.threshold = true →
      analyze_session env = (.skipRecent, false)) ∧
    (has_recent_message env.lastLookup env.now env.threshold = false →
      get_message_history_total env.sessionId env.historyFetch = [] →
      analyze_session env = (.skipNoHistory, false)) ∧
    (has_recent_message env.lastLookup env.now env.threshold = false →
      get_message_history_total env.sessionId env.historyFetch ≠ [] →
      (call_llm_for_decision env.decision).1 = false →
      analyze_session env = (.skipDeclined, true)) ∧
    (has_recent_message env.lastLookup env.now env.threshold = false →
      get_message_history_total env.sessionId env.historyFetch ≠ [] →
      (call_llm_for_decision env.decision).1 = true →
      (get_proactive_topic env = none ∨ get_proactive_topic env = some []) →
      analyze_session env = (.skipNoTopic, true)) ∧
    (has_recent_message env.lastLookup env.now env.threshold = false →
      get_message_history_total env.sessionId env.historyFetch ≠ [] →
      (call_llm_for_decision env.decision).1 = true →
      ∀ t, get_proactive_topic env = some t → t ≠ [] →
      analyze_session env = (.send t, true)) := by
  refine ⟨?_, ?_, ?_, ?_, ?_⟩
  · intro hr
    unfold analyze_session
    rw [if_pos hr]
  · intro hr hh
    unfold analyze_session
    rw [if_neg (by rw [hr]; exact Bool.false_ne_true), if_pos hh]
  · intro hr hh hd
    unfold analyze_session
    rw [if_neg (by rw [hr]; exact Bool.false_ne_true), if_neg hh,
      if_neg (by rw [hd]; exact Bool.false_ne_true)]
  · intro hr hh hd ht
    unfold analyze_session
    rw [if_neg (by rw [hr]; exact Bool.false_ne_true), if_neg hh, if_pos hd]
    rcases ht with ht | ht
    · rw [ht]
    · rw [ht]
      simp
  · intro hr hh hd t ht htne
    unfold analyze_session
    rw [if_neg (by rw [hr]; exact Bool.false_ne_true), if_neg hh, if_pos hd, ht]
    simp only []
    rw [if_neg htne]

/-- A pipeline environment with a non-empty (enhanced) one-message
history, used by concrete evaluations. -/
def liveHistory : HistoryEnv := ⟨true, [userMsg], none, none⟩

/-- Witness for C1 at concrete sessions: a too-recent session, an
empty-transcript session (oracle never reached), a declined decision, an
empty topic reply after a YES decision, and a full send. -/
theorem spec_c1_witness :
    analyze_session ⟨"s", 100, 1800, .ok (some 100), .ok liveHistory,
        .noProvider, .ok liveHistory, .noProvider⟩ = (.skipRecent, false) ∧
    analyze_session ⟨"s", 100, 1800, .ok none, .ok ⟨false, [], none, none⟩,
        .noProvider, .ok liveHistory, .noProvider⟩ = (.skipNoHistory, false) ∧
    analyze_session ⟨"s", 100, 1800, .ok none, .ok liveHistory,
        .reply ['n', 'o'], .ok liveHistory, .noProvider⟩ = (.skipDeclined, true) ∧
    analyze_session ⟨"s", 100, 1800, .ok none, .ok liveHistory,
        .reply ['^', '&', 'Y', 'E', 'S', '&', '^'], .ok liveHistory,
        .emptyCompletion⟩ = (.skipNoTopic, true) ∧
    analyze_session ⟨"s", 100, 1800, .ok none, .ok liveHistory,
        .reply ['^', '&', 'Y', 'E', 'S', '&', '^'], .ok liveHistory,
        .reply ['h', 'i']⟩ = (.send ['h', 'i'], true) := by
  refine ⟨?_, ?_, ?_, ?_, ?_⟩
  · exact ( spec_c1_theorem _).1 (by decide)
  · exact ( spec_c1_theorem _).2.1 (by decide) (by decide)
  · exact ( spec_c1_theorem _).2.2.1 (by decide) (by decide) (by decide)
  · exact ( spec_c1_theorem _).2.2.2.1 (by decide) (by decide) (by decide)
      (Or.inl (by decide))
  · exact ( spec_c1_theorem _).2.2.2.2 (by decide) (by decide) (by decide)
      ['h', 'i'] (by decide) (by decide)

/-! ## C2: error containment and per-session isolation -/

/-- C2: an error raised anywhere inside one session's analysis
(`Except.error` reaching the loop body's boundary) is converted to a
skip entry carrying the error message; every body outcome — error
included — yields exactly one `SessionResult`, never a raise, so the
batch maps each session to a result (the loop is total and of the same
length as its input); and the result at any position depends only on
that session's own outcome, so changing (for example, failing) one
session's analysis leaves every other session's result unchanged. -/
theorem spec_c2_theorem :
    (∀ (adminOnly admin : Bool) (e : String) (sid : List Char),
      ¬ (adminOnly = true ∧ admin = false) →
      process_session adminOnly admin (.error e) sid =
        .skipped sid ("处理异常: " ++ e).data) ∧
    (∀ (adminOnly admin : Bool) (e : String) (sid : List Char),
      ∃ reason, process_session adminOnly admin (.error e) sid =
        .skipped sid reason) ∧
    (∀ (adminOnly : Bool) (admin : List Char → Bool)
        (analyze : List Char → Except String StepVerdict)
        (sessions : List (List Char)),
      (run_batch adminOnly admin analyze sessions).length = sessions.length) ∧
    (∀ (adminOnly : Bool) (admin : List Char → Bool)
        (analyze analyze' : List Char → Except String StepVerdict)
        (sessions : List (List Char)) (s : List Char),
      (∀ sid, sid ≠ s → analyze sid = analyze' sid) →
      ∀ (i : ℕ) (sid : List Char), sessions[i]? = some sid → sid ≠ s →
        (run_batch adminOnly admin analyze sessions)[i]? =
          (run_batch adminOnly admin analyze' sessions)[i]?) := by
  refine ⟨?_, ?_, ?_, ?_⟩
  · intro adminOnly admin e sid hguard
    unfold process_session
    rw [if_neg (by simpa using hguard)]
  · intro adminOnly admin e sid
    unfold process_session
    by_cases hguard : adminOnly = true ∧ ¬ admin = true
    · rw [if_pos hguard]
      exact ⟨_, rfl⟩
    · rw [if_neg hguard]
      exact ⟨_, rfl⟩
  · intro adminOnly admin analyze sessions
    unfold run_batch
    rw [List.length_map]
  · intro adminOnly admin analyze analyze' sessions s hagree i sid hget hne
    unfold run_batch
    rw [List.getElem?_map, List.getElem?_map, hget]
    simp only [Option.map_some']
    rw [hagree sid hne]

/-- Witness for C2: a raised analysis is recorded as a skip with the
error message; a batch of two sessions where the first session's
analysis is replaced by a raise leaves the second session's result
unchanged. -/
theorem spec_c2_witness :
    process_session false true (.error "boom") ['a'] =
      .skipped ['a'] ("处理异常: " ++ "boom").data ∧
    (run_batch false (fun _ => true) (fun _ => .ok .skipNoTopic)
        [['a'], ['b']]).length = 2 ∧
    (run_batch false (fun _ => true)
        (fun sid => if sid = ['a'] then .error "boom" else .ok .skipNoTopic)
        [['a'], ['b']])[1]? =
      (run_batch false (fun _ => true) (fun _ => .ok .skipNoTopic)
        [['a'], ['b']])[1]? := by
  refine ⟨?_, ?_, ?_⟩
  · exact spec_c2_theorem.1 false true "boom" ['a'] (by simp)
  · exact spec_c2_theorem.2.2.1 false (fun _ => true) (fun _ => .ok .skipNoTopic)
      [['a'], ['b']]
  · exact spec_c2_theorem.2.2.2 false (fun _ => true)
      (fun sid => if sid = ['a'] then .error "boom" else .ok .skipNoTopic)
      (fun _ => .ok .skipNoTopic) [['a'], ['b']] ['a']
      (fun sid hne => by simp only []; rw [if_neg hne]) 1 ['b'] (by decide) (by decide)

/-! ## C7: session discovery -/

/-- Membership in the discovery fold: a session id is collected iff it
was already in the accumulator or appears as a successfully processed,
private entry of the store. -/
theorem private_fold_mem :
    ∀ (convs : List (Except String (List Char))) (acc : List (List Char))
      (s : List Char),
    s ∈ convs.foldl private_session_step acc ↔
      s ∈ acc ∨ ((.ok s) ∈ convs ∧ is_private_conversation_by_id s = true) := by
  intro convs
  induction convs with
  | nil => intro acc s; simp
  | cons c rest ih =>
    intro acc s
    rw [List.foldl_cons, ih]
    cases c with
    | error e => simp [private_session_step]
    | ok sid =>
      by_cases hp : is_private_conversation_by_id sid
      · by_cases hmem : sid ∈ acc
        · simp only [private_session_step, if_pos hp, if_pos hmem, List.mem_cons]
          constructor
          · rintro (h | h)
            · exact Or.inl h
            · exact Or.inr ⟨Or.inr h.1, h.2⟩
          · rintro (h | ⟨hin | hin, hpr⟩)
            · exact Or.inl h
            · cases hin
              exact Or.inl hmem
            · exact Or.inr ⟨hin, hpr⟩
        · simp only [private_session_step, if_pos hp, if_neg hmem, List.mem_cons,
            List.mem_append]
          constructor
          · rintro ((h | h | h) | h)
            · exact Or.inl h
            · subst h
              exact Or.inr ⟨Or.inl rfl, hp⟩
            · cases h
            · exact Or.inr ⟨Or.inr h.1, h.2⟩
          · rintro (h | ⟨hin | hin, hpr⟩)
            · exact Or.inl (Or.inl h)
            · cases hin
              exact Or.inl (Or.inr (Or.inl rfl))
            · exact Or.inr ⟨hin, hpr⟩
      · simp only [private_session_step, if_neg hp, List.mem_cons]
        constructor
        · rintro (h | h)
          · exact Or.inl h
          · exact Or.inr ⟨Or.inr h.1, h.2⟩
        · rintro (h | ⟨hin | hin, hpr⟩)
          · exact Or.inl h
          · cases hin
            rw [hpr] at hp
            cases hp rfl
          · exact Or.inr ⟨hin, hpr⟩

/-- The discovery fold never introduces duplicates: the set semantics of
`private_sessions`. -/
theorem private_fold_nodup :
    ∀ (convs : List (Except String (List Char))) (acc : List (List Char)),
    acc.Nodup → (convs.foldl private_session_step acc).Nodup := by
  intro convs
  induction convs with
  | nil => intro acc h; simpa using h
  | cons c rest ih =>
    intro acc h
    rw [List.foldl_cons]
    apply ih
    cases c with
    | error e => exact h
    | ok sid =>
      by_cases hp : is_private_conversation_by_id sid
      · by_cases hmem : sid ∈ acc
        · simpa [private_session_step, hp, hmem] using h
        · simp only [private_session_step, if_pos hp, if_neg hmem]
          rw [List.nodup_append]
          refine ⟨h, List.nodup_singleton sid, ?_⟩
          intro a ha hb
          rw [List.mem_singleton] at hb
          subst hb
          exact hmem ha
      · simpa [private_session_step, hp] using h

/-- A store entry whose processing raises contributes nothing: the fold
over the store with the entry removed is identical. -/
theorem private_fold_error_skip :
    ∀ (pre post : List (Except String (List Char))) (acc : List (List Char))
      (e : String),
    (pre ++ .error e :: post).foldl private_session_step acc =
      (pre ++ post).foldl private_session_step acc := by
  intro pre post acc e
  rw [List.foldl_append, List.foldl_append, List.foldl_cons]
  rfl

/-- C7: discovery returns a deduplicated population — each collected id
appears exactly once even when the store yields duplicates; only
private sessions (second `':'`-segment `FriendMessage`) are kept; with
the admin-only filter, only sessions whose trailing `':'`-segment is an
admin principal are kept; and an entry whose processing raises is
skipped without affecting the rest of discovery. -/
theorem spec_c7_theorem :
    (∀ (adminOnly : Bool) (admins : List (List Char))
        (convs : List (Except String (List Char))) (s : List Char),
      s ∈ list_eligible_sessions adminOnly admins convs →
        is_private_conversation_by_id s = true) ∧
    (∀ (admins : List (List Char)) (convs : List (Except String (List Char)))
        (s : List Char),
      s ∈ list_eligible_sessions false admins convs ↔
        (.ok s) ∈ convs ∧ is_private_conversation_by_id s = true) ∧
    (∀ (admins : List (List Char)) (convs : List (Except String (List Char)))
        (s : List Char),
      s ∈ list_eligible_sessions true admins convs ↔
        (.ok s) ∈ convs ∧ is_private_conversation_by_id s = true ∧
          is_admin_conversation admins s = true) ∧
    (∀ (admins : List (List Char)) (convs : List (Except String (List Char)))
        (s : List Char),
      s ∈ list_eligible_sessions true admins convs →
        ∃ u, (splitOnChar ':' s).getLast? = some u ∧ u ∈ admins) ∧
    (∀ (adminOnly : Bool) (admins : List (List Char))
        (convs : List (Except String (List Char))),
      (list_eligible_sessions adminOnly admins convs).Nodup) ∧
    (∀ (adminOnly : Bool) (admins : List (List Char))
        (pre post : List (Except String (List Char))) (e : String),
      list_eligible_sessions adminOnly admins (pre ++ .error e :: post) =
        list_eligible_sessions adminOnly admins (pre ++ post)) := by
  have hfalse : ∀ (admins : List (List Char)) convs (s : List Char),
      s ∈ list_eligible_sessions false admins convs ↔
        (.ok s) ∈ convs ∧ is_private_conversation_by_id s = true := by
    intro admins convs s
    unfold list_eligible_sessions
    rw [if_neg Bool.false_ne_true]
    unfold get_private_conversations
    rw [private_fold_mem]
    simp
  have htrue : ∀ (admins : List (List Char)) convs (s : List Char),
      s ∈ list_eligible_sessions true admins convs ↔
        (.ok s) ∈ convs ∧ is_private_conversation_by_id s = true ∧
          is_admin_conversation admins s = true := by
    intro admins convs s
    unfold list_eligible_sessions
    rw [if_pos rfl, List.mem_filter]
    unfold get_private_conversations
    rw [private_fold_mem]
    simp [and_assoc]
  have hnodup : ∀ (adminOnly : Bool) (admins : List (List Char)) convs,
      (list_eligible_sessions adminOnly admins convs).Nodup := by
    intro adminOnly admins convs
    unfold list_eligible_sessions
    have hg : (get_private_conversations convs).Nodup :=
      private_fold_nodup convs [] (List.nodup_nil)
    cases adminOnly with
    | false => simpa using hg
    | true => simpa using hg.filter _
  refine ⟨?_, hfalse, htrue, ?_, ?_, ?_⟩
  · intro adminOnly admins convs s hs
    cases adminOnly with
    | false => exact ((hfalse admins convs s).mp hs).2
    | true => exact ((htrue admins convs s).mp hs).2.1
  · intro admins convs s hs
    have hadm := ((htrue admins convs s).mp hs).2.2
    unfold is_admin_conversation at hadm
    by_cases hlen : 3 ≤ (splitOnChar ':' s).length
    · rw [if_pos hlen] at hadm
      cases hg : (splitOnChar ':' s).getLast? with
      | none =>
        rw [hg] at hadm
        cases hadm
      | some u =>
        rw [hg] at hadm
        exact ⟨u, rfl, of_decide_eq_true hadm⟩
    · rw [if_neg hlen] at hadm
      cases hadm
  · exact hnodup
  · intro adminOnly admins pre post e
    unfold list_eligible_sessions get_private_conversations
    rw [private_fold_error_skip]

/-- A concrete private session id `q:FriendMessage:9`. -/
def sampleSid : List Char :=
  ['q', ':', 'F', 'r', 'i', 'e', 'n', 'd', 'M', 'e', 's', 's', 'a', 'g', 'e', ':', '9']

/-- Witness for C7: a store with a duplicated private entry yields the
id once (membership in a duplicate-free result); the admin filter keeps
the id whose principal `9` is an admin; a raising store entry between
two good ones changes nothing. -/
theorem spec_c7_witness :
    sampleSid ∈ list_eligible_sessions false [] [.ok sampleSid, .ok sampleSid] ∧
    (list_eligible_sessions false [] [.ok sampleSid, .ok sampleSid]).Nodup ∧
    sampleSid ∈ list_eligible_sessions true [['9']] [.ok sampleSid] ∧
    list_eligible_sessions false [] [.ok sampleSid, .error "bad entry", .ok sampleSid] =
      list_eligible_sessions false [] [.ok sampleSid, .ok sampleSid] := by
  refine ⟨?_, ?_, ?_, ?_⟩
  · exact ( spec_c7_theorem.2.1 [] [.ok sampleSid, .ok sampleSid] sampleSid).mpr
      ⟨by simp, by decide⟩
  · exact spec_c7_theorem.2.2.2.2.1 false [] [.ok sampleSid, .ok sampleSid]
  · exact ( spec_c7_theorem.2.2.1 [['9']] [.ok sampleSid] sampleSid).mpr
      ⟨by simp, by decide, by decide⟩
  · exact spec_c7_theorem.2.2.2.2.2 false [] [.ok sampleSid] [.ok sampleSid] "bad entry"

/-! ## C8: no overlapping batches -/

/-- With a one-instance configuration, the running count never exceeds
one along any event trace. -/
theorem job_run_le_one_aux (cfg : JobConfig) (hmax : cfg.maxInstances = 1) :
    ∀ (events : List SchedEvent) (r : Nat), r ≤ 1 →
      events.foldl (job_step cfg) r ≤ 1 := by
  intro events
  induction events with
  | nil => intro r hr; simpa using hr
  | cons e rest ih =>
    intro r hr
    rw [List.foldl_cons]
    apply ih
    cases e with
    | fire lateness =>
      unfold job_step job_fire
      dsimp only
      rw [hmax]
      by_cases hlt : r < 1
      · rw [if_pos hlt]
        omega
      · rw [if_neg hlt]
        by_cases hg : lateness ≤ cfg.misfireGraceTime
        · rw [if_pos hg]
          exact hr
        · rw [if_neg hg]
          exact hr
    | finish =>
      unfold job_step
      dsimp only
      omega

/-- C8: a job registered by `add_job` is configured with
`max_instances = 1` and `misfire_grace_time = 30`; under the framework's
one-instance semantics no trace of fires and finishes ever reaches two
concurrent batches, and a fire arriving while a batch runs leaves the
running count unchanged — recorded as a misfire within the 30 s grace
period and dropped beyond it, never started and never queued. -/
theorem spec_c8_theorem (interval : String) (numJobs : Nat) :
    ((add_job_config interval numJobs).maxInstances = 1 ∧
      (add_job_config interval numJobs).misfireGraceTime = 30) ∧
    (∀ events : List SchedEvent,
      job_run (add_job_config interval numJobs) events ≤ 1) ∧
    (∀ (r lateness : Nat), 1 ≤ r →
      (job_fire (add_job_config interval numJobs) r lateness).1 = r ∧
      (job_fire (add_job_config interval numJobs) r lateness).2 =
        (if lateness ≤ 30 then .misfireRecorded else .dropped)) := by
  refine ⟨⟨rfl, rfl⟩, ?_, ?_⟩
  · intro events
    exact job_run_le_one_aux (add_job_config interval numJobs) rfl events 0 (by omega)
  · intro r lateness hr
    unfold job_fire
    have hmax : (add_job_config interval numJobs).maxInstances = 1 := rfl
    have hgr : (add_job_config interval numJobs).misfireGraceTime = 30 := rfl
    rw [hmax, hgr, if_neg (by omega : ¬ r < 1)]
    by_cases hg : lateness ≤ 30
    · rw [if_pos hg, if_pos hg]
      exact ⟨rfl, rfl⟩
    · rw [if_neg hg, if_neg hg]
      exact ⟨rfl, rfl⟩

/-- Witness for C8: a double fire followed by a finish and a very late
fire never stacks batches; a fire during a running batch is recorded as
a misfire at lateness 5 and dropped at lateness 100. -/
theorem spec_c8_witness :
    job_run (add_job_config "10min" 0) [.fire 0, .fire 0, .finish, .fire 100] ≤ 1 ∧
    (job_fire (add_job_config "10min" 0) 1 5).1 = 1 ∧
    (job_fire (add_job_config "10min" 0) 1 5).2 = .misfireRecorded ∧
    (job_fire (add_job_config "10min" 0) 1 100).2 = .dropped := by
  have h5 := ( spec_c8_theorem "10min" 0).2.2 1 5 (by omega)
  have h100 := ( spec_c8_theorem "10min" 0).2.2 1 100 (by omega)
  refine ⟨( spec_c8_theorem "10min" 0).2.1 [.fire 0, .fire 0, .finish, .fire 100],
    h5.1, ?_, ?_⟩
  · rw [h5.2]
    rfl
  · rw [h100.2]
    rfl

/-! ## C9: duration-token parsing -/

/-- C9 (amended): each call site maps its own enumerated token table —
the scheduler's `_parse_interval` knows `5min/10min/30min/1hour/3hour`,
the analyzer's `_parse_time_threshold` knows
`1min/5min/10min/30min/1hour` — and any token outside the site's own
table falls to that site's default: 600 s for the scheduling cadence,
1800 s for the recency threshold. In particular `3hour` resolves to
1800 at the threshold site and `1min` to 600 at the cadence site. -/
theorem spec_c9_theorem :
    (parse_interval "5min" = 300 ∧ parse_interval "10min" = 600 ∧
      parse_interval "30min" = 1800 ∧ parse_interval "1hour" = 3600 ∧
      parse_interval "3hour" = 10800) ∧
    (parse_time_threshold "1min" = 60 ∧ parse_time_threshold "5min" = 300 ∧
      parse_time_threshold "10min" = 600 ∧ parse_time_threshold "30min" = 1800 ∧
      parse_time_threshold "1hour" = 3600) ∧
    (∀ s : String, s ∉ ["5min", "10min", "30min", "1hour", "3hour"] →
      parse_interval s = 600) ∧
    (∀ s : String, s ∉ ["1min", "5min", "10min", "30min", "1hour"] →
      parse_time_threshold s = 1800) := by
  refine ⟨⟨rfl, rfl, rfl, rfl, rfl⟩, ⟨rfl, rfl, rfl, rfl, rfl⟩, ?_, ?_⟩
  · intro s hs
    simp only [List.mem_cons, List.not_mem_nil, or_false, not_or] at hs
    obtain ⟨h1, h2, h3, h4, h5⟩ := hs
    unfold parse_interval interval_mapping
    simp [List.lookup, beq_false_of_ne, h1, h2, h3, h4, h5]
  · intro s hs
    simp only [List.mem_cons, List.not_mem_nil, or_false, not_or] at hs
    obtain ⟨h1, h2, h3, h4, h5⟩ := hs
    unfold parse_time_threshold threshold_mapping
    simp [List.lookup, beq_false_of_ne, h1, h2, h3, h4, h5]

/-- Witness for C9: an unrecognized token resolves to the two different
site defaults. -/
theorem spec_c9_witness :
    parse_interval "2min" = 600 ∧ parse_time_threshold "2min" = 1800 := by
  exact ⟨ spec_c9_theorem.2.2.1 "2min" (by decide),
    spec_c9_theorem.2.2.2 "2min" (by decide)⟩

/-- Counterexample to C9 as stated: the two call sites do not share one
table — `3hour` is absent from the threshold table (resolving to the
1800 s default, not 10800), and `1min` is absent from the scheduler
table (resolving to the 600 s default, not 60). -/
theorem spec_c9_counterexample :
    parse_time_threshold "3hour" = 1800 ∧ (1800 : Int) ≠ 10800 ∧
    parse_interval "1min" = 600 ∧ (600 : Int) ≠ 60 := by
  exact ⟨rfl, by decide, rfl, by decide⟩
